import Mathlib

/-!
Verification of the runbook action dispatcher (package `runbook` of
prequel-dev/preq) against its natural-language specification.

The Go source is shallowly embedded:

* Go `any` values reachable from an event record are the closed value type
  `GoVal` (string, int, bool, nil, slice, `map[string]any`, struct, and one
  level of pointer indirection), as the spec's design notes prescribe for the
  reflection-based code.
* An event record (`map[string]any`) is an association list; map lookup is
  first-match lookup.
* Side effects (HTTP requests, child processes) are collected in an explicit
  trace; the outside world (HTTP transport, process runner, environment
  variables) is a record of functions passed in.
* Errors are their Go message strings, carried in `Except String`.
* Go's `text/template` engine is embedded for the sublanguage the runbook
  configs use: literal text interleaved with calls to the custom `field`
  function ({{ field . "Name" }}).  A template source string is either a
  sequence of such parts or syntactically invalid; `text/template.Parse`
  succeeds exactly on the former.  Executing such a template cannot fail;
  a `nil` final value prints as "<no value>" (text/template digs through the
  empty interface, obtaining the invalid reflect.Value, which
  `printableValue` renders as "<no value>").
* Go's `regexp.Compile` is embedded likewise: a pattern source either
  compiles to a matcher (`String → Bool`) or is invalid.
* `encoding/json.Marshal` is embedded with its observable conventions:
  object keys of maps sorted, strings quoted with the default
  (HTML-escaping) escape rules, `null` for nil.
-/

/-- A Go value reachable from an event record (`map[string]any`). -/
inductive GoVal where
  | vnull : GoVal
  | vstr (s : String) : GoVal
  | vint (n : Int) : GoVal
  | vbool (b : Bool) : GoVal
  | vseq (xs : List GoVal) : GoVal
  | vmap (m : List (String × GoVal)) : GoVal
  | vstruct (fields : List (String × GoVal)) : GoVal
  | vptr (v : GoVal) : GoVal
deriving Repr

/-- An event record: the `map[string]any` a detected event is reported as. -/
abbrev EventRecord := List (String × GoVal)

/-- Go `m[k].(string)`: look `k` up and type-assert the result to a string. -/
def stringAt (m : List (String × GoVal)) (k : String) : Option String :=
  match m.lookup k with
  | some (GoVal.vstr s) => some s
  | _ => none

/-- The map variant of `extractCREID`: `m["id"].(string)` then `m["ID"].(string)`. -/
def mapCreId (m : List (String × GoVal)) : Option String :=
  match stringAt m "id" with
  | some s => some s
  | none => stringAt m "ID"

/-- `reflect.ValueOf(v)` followed by `Elem()` when the kind is `Pointer`. -/
def derefOnce : GoVal → GoVal
  | GoVal.vptr v => v
  | v => v

/-- `extractCREID` (source): the `cre` field's id if `cre` is a
`map[string]any` with an `"id"`/`"ID"` string, else the `ID` string field of
a (possibly pointed-to) struct, else the top-level `"id"` string, else `""`. -/
def extractCREID (ev : EventRecord) : String :=
  match ev.lookup "cre" with
  | none =>
      match stringAt ev "id" with
      | some s => s
      | none => ""
  | some cre =>
      match (match cre with
             | GoVal.vmap m => mapCreId m
             | _ => none) with
      | some id => id
      | none =>
          match derefOnce cre with
          | GoVal.vstruct fs =>
              match stringAt fs "ID" with
              | some s => s
              | none =>
                  match stringAt ev "id" with
                  | some s => s
                  | none => ""
          | _ =>
              match stringAt ev "id" with
              | some s => s
              | none => ""

/-- The custom `field` template function of `funcMap` (source): map lookup
for `map[string]any`, reflective field lookup for structs (through one
pointer), `nil` (here `GoVal.vnull`) in every other case. -/
def fieldFunc : GoVal → String → GoVal
  | GoVal.vnull, _ => GoVal.vnull
  | GoVal.vmap m, name => (m.lookup name).getD GoVal.vnull
  | obj, name =>
      match derefOnce obj with
      | GoVal.vstruct fs => (fs.lookup name).getD GoVal.vnull
      | _ => GoVal.vnull

/-- One parsed node of a runbook template: literal text, or a pipeline
invoking the `field` accessor on the dot with a fixed field name. -/
inductive TmplPart where
  | lit (s : String) : TmplPart
  | fieldAcc (name : String) : TmplPart
deriving Repr, DecidableEq

/-- A template source string as `text/template.Parse` sees it: either it
parses to a part list (the empty string being exactly `valid []`), or it is
syntactically invalid and `Parse` returns the error message. -/
inductive TmplSrc where
  | valid (parts : List TmplPart) : TmplSrc
  | invalid (msg : String) : TmplSrc
deriving Repr, DecidableEq

/-- Emptiness test on the underlying source string (Go `s == ""`). -/
def TmplSrc.isEmptyStr : TmplSrc → Bool
  | TmplSrc.valid [] => true
  | _ => false

/-- `text/template.New(name).Funcs(funcMap()).Parse(src)`. -/
def parseTmpl : TmplSrc → Except String (List TmplPart)
  | TmplSrc.valid parts => Except.ok parts
  | TmplSrc.invalid msg => Except.error msg

/-- One digit of lowercase hexadecimal, for \u00XX escapes. -/
def hexDigit (n : Nat) : Char :=
  if n < 10 then Char.ofNat (48 + n) else Char.ofNat (87 + n)

/-- `encoding/json`'s escaping of one character inside a quoted string
(default encoder: HTML-escaping on). -/
def jsonEscapeChar (c : Char) : String :=
  if c = '"' then "\\\""
  else if c = '\\' then "\\\\"
  else if c = '\n' then "\\n"
  else if c = '\r' then "\\r"
  else if c = '\t' then "\\t"
  else if c = '<' then "\\u003c"
  else if c = '>' then "\\u003e"
  else if c = '&' then "\\u0026"
  else if c.val < 32 then
    String.mk ['\\', 'u', '0', '0', hexDigit (c.val.toNat / 16), hexDigit (c.val.toNat % 16)]
  else if c.val = 8232 then "\\u2028"
  else if c.val = 8233 then "\\u2029"
  else String.mk [c]

/-- `encoding/json`'s quoted-string form of `s`. -/
def jsonString (s : String) : String :=
  "\"" ++ String.join (s.toList.map jsonEscapeChar) ++ "\""

/-- Lexicographic order on character lists, by code point (Go compares
string bytes, which agrees on the keys occurring here). -/
def charListLt : List Char → List Char → Bool
  | [], [] => false
  | [], _ :: _ => true
  | _ :: _, [] => false
  | a :: as, b :: bs =>
      if a.val < b.val then true
      else if b.val < a.val then false
      else charListLt as bs

/-- Go `a < b` on strings. -/
def strLt (a b : String) : Bool := charListLt a.toList b.toList

/-- Insert one already-marshalled `(key, json)` pair keeping keys sorted. -/
def insertPair (p : String × String) : List (String × String) → List (String × String)
  | [] => [p]
  | q :: qs => if strLt p.1 q.1 then p :: q :: qs else q :: insertPair p qs

/-- Sort already-marshalled `(key, json)` pairs by key, as `encoding/json`
does for map keys. -/
def sortPairs : List (String × String) → List (String × String)
  | [] => []
  | p :: ps => insertPair p (sortPairs ps)

mutual

/-- `encoding/json.Marshal` on the embedded value type.  Map keys are
sorted; struct fields keep declaration order and unexported (lowercase)
fields are skipped.  (The pairs are marshalled first and sorted by key
afterwards, which yields the same output as sorting before marshalling.) -/
def jsonMarshal : GoVal → String
  | GoVal.vnull => "null"
  | GoVal.vstr s => jsonString s
  | GoVal.vint n => toString n
  | GoVal.vbool b => cond b "true" "false"
  | GoVal.vseq xs => "[" ++ String.intercalate "," (jsonMarshalList xs) ++ "]"
  | GoVal.vmap m =>
      "\x7b" ++
        String.intercalate ","
          ((sortPairs (jsonMarshalPairs m)).map (fun p => jsonString p.1 ++ ":" ++ p.2)) ++
      "\x7d"
  | GoVal.vstruct fs =>
      "\x7b" ++
        String.intercalate ","
          (((jsonMarshalPairs fs).filter (fun p => p.1.toList.headD 'A' |>.isUpper)).map
            (fun p => jsonString p.1 ++ ":" ++ p.2)) ++
      "\x7d"
  | GoVal.vptr v => jsonMarshal v

/-- Marshal every element of a slice. -/
def jsonMarshalList : List GoVal → List String
  | [] => []
  | x :: xs => jsonMarshal x :: jsonMarshalList xs

/-- Marshal the value of every `(key, value)` pair. -/
def jsonMarshalPairs : List (String × GoVal) → List (String × String)
  | [] => []
  | (k, v) :: ps => (k, jsonMarshal v) :: jsonMarshalPairs ps

end

mutual

/-- `fmt.Fprint`'s rendering of one value, as `text/template` prints the
final non-nil pipeline value.  Only the string case is exercised by the
verified claims; composites follow fmt's bracketed forms with map keys
sorted. -/
def fmtVal : GoVal → String
  | GoVal.vnull => "<nil>"
  | GoVal.vstr s => s
  | GoVal.vint n => toString n
  | GoVal.vbool b => cond b "true" "false"
  | GoVal.vseq xs => "[" ++ String.intercalate " " (fmtValList xs) ++ "]"
  | GoVal.vmap m =>
      "map[" ++
        String.intercalate " "
          ((sortPairs (fmtValPairs m)).map (fun p => p.1 ++ ":" ++ p.2)) ++
      "]"
  | GoVal.vstruct fs =>
      "\x7b" ++ String.intercalate " " ((fmtValPairs fs).map (fun p => p.2)) ++ "\x7d"
  | GoVal.vptr v => "&" ++ fmtVal v

/-- `fmt` rendering of each element of a slice. -/
def fmtValList : List GoVal → List String
  | [] => []
  | x :: xs => fmtVal x :: fmtValList xs

/-- `fmt` rendering of the value of each pair. -/
def fmtValPairs : List (String × GoVal) → List (String × String)
  | [] => []
  | (k, v) :: ps => (k, fmtVal v) :: fmtValPairs ps

end

/-- Execution of one parsed template node against the dot (the event
record): literal text verbatim; a `field` pipeline prints the accessed
value, a nil result printing as "<no value>". -/
def renderPart (ev : EventRecord) : TmplPart → String
  | TmplPart.lit s => s
  | TmplPart.fieldAcc name =>
      match fieldFunc (GoVal.vmap ev) name with
      | GoVal.vnull => "<no value>"
      | v => fmtVal v

/-- `executeTemplate` (source): execute a parsed template against one event
record into a string.  For the embedded sublanguage execution cannot fail. -/
def executeTemplate (parts : List TmplPart) (ev : EventRecord) : String :=
  String.join (parts.map (renderPart ev))

/-- Substring test over explicit character lists (needle `n` occurs in `h`). -/
def charsContain (h n : List Char) : Bool :=
  match h with
  | [] => n.isEmpty
  | _ :: t => n.isPrefixOf h || charsContain t n

/-- `strings.Contains`: does `pat` occur as a substring of `s`? -/
def strContains (s pat : String) : Bool :=
  charsContain s.toList pat.toList

/-- An outbound HTTP request as the runbook actions construct it. -/
structure HttpRequest where
  method : String
  url : String
  headers : List (String × String)
  body : String
deriving Repr, DecidableEq

/-- An HTTP response; `statusCode` is the numeric code and `reason` the
reason phrase, the status line being their concatenation as in `net/http`'s
`Response.Status`. -/
structure HttpResponse where
  statusCode : Nat
  reason : String
  body : String
deriving Repr, DecidableEq

/-- `Response.Status`: the status line, e.g. "500 Internal Server Error". -/
def HttpResponse.status (r : HttpResponse) : String :=
  toString r.statusCode ++ " " ++ r.reason

/-- One observable side effect of executing an action. -/
inductive Effect where
  | http (req : HttpRequest) : Effect
  | spawn (path : String) (args : List String) (stdin : String) : Effect
deriving Repr, DecidableEq

/-- The outside world an execution runs against: the HTTP transport
(`http.Client.Do`, returning a transport error or a response) and the
process runner (`exec.Cmd.Run`, returning a spawn error or an exit code). -/
structure World where
  http : HttpRequest → Except String HttpResponse
  run : String → List String → String → Except String Nat

/-- `slackConfig` (source). -/
structure SlackConfig where
  webhookURL : String
  messageTemplate : TmplSrc

/-- `jiraConfig` (source). -/
structure JiraConfig where
  webhookURL : String
  secret : String
  secretEnv : String
  summaryTemplate : TmplSrc
  descriptionTemplate : TmplSrc
  projectKey : String

/-- `execConfig` (source); each argument is a template source string. -/
structure ExecConfig where
  path : String
  args : List TmplSrc

/-- A compiled regular expression, abstracted (as the spec's design notes
allow for stdlib collaborators) to its matching function
`regexp.Regexp.MatchString`. -/
structure Regexp where
  matchString : String → Bool

/-- A constructed action: the three concrete variants with their parsed
templates, plus the filter decorator `filteredAction` wrapping an inner
action with an optional compiled pattern. -/
inductive ActionT where
  | slack (cfg : SlackConfig) (tmpl : List TmplPart) : ActionT
  | jira (cfg : JiraConfig) (summaryTmpl descTmpl : List TmplPart) : ActionT
  | exec (cfg : ExecConfig) : ActionT
  | filtered (pattern : Option Regexp) (inner : ActionT) : ActionT

/-- `adfParagraph` (source): wrap rendered text in the rich-text document
shape required downstream — one doc of version 1 holding one paragraph
holding one text node. -/
def adfParagraph (txt : String) : GoVal :=
  GoVal.vmap
    [("type", GoVal.vstr "doc"),
     ("version", GoVal.vint 1),
     ("content", GoVal.vseq
       [GoVal.vmap
         [("type", GoVal.vstr "paragraph"),
          ("content", GoVal.vseq
            [GoVal.vmap
              [("type", GoVal.vstr "text"),
               ("text", GoVal.vstr txt)]])]])]

/-- The jira payload map built in `jiraAction.Execute` (source). -/
def jiraPayload (projectKey summary desc : String) : GoVal :=
  GoVal.vmap
    [("project", GoVal.vmap [("key", GoVal.vstr projectKey)]),
     ("summary", GoVal.vstr summary),
     ("description", adfParagraph desc),
     ("issuetype", GoVal.vmap [("name", GoVal.vstr "Bug")])]

/-- The request `slackAction.Execute` issues for a rendered message. -/
def slackRequest (cfg : SlackConfig) (msg : String) : HttpRequest :=
  { method := "POST"
    url := cfg.webhookURL
    headers := [("Content-Type", "application/json")]
    body := jsonMarshal (GoVal.vmap [("text", GoVal.vstr msg)]) }

/-- The request `jiraAction.Execute` issues for rendered summary and
description; the token header is set when the secret is non-empty. -/
def jiraRequest (cfg : JiraConfig) (summary desc : String) : HttpRequest :=
  { method := "POST"
    url := cfg.webhookURL
    headers :=
      [("Content-Type", "application/json")] ++
        (if cfg.secret ≠ "" then [("X-Automation-Webhook-Token", cfg.secret)] else [])
    body := jsonMarshal (jiraPayload cfg.projectKey summary desc) }

/-- The per-event re-parsing and rendering of the exec arguments
(`execAction.Execute`, source): each argument template is parsed afresh and
rendered, stopping at the first parse error. -/
def renderArgs (args : List TmplSrc) (ev : EventRecord) : Except String (List String) :=
  match args with
  | [] => Except.ok []
  | a :: rest =>
      match parseTmpl a with
      | Except.error e => Except.error e
      | Except.ok parts =>
          match renderArgs rest ev with
          | Except.error e => Except.error e
          | Except.ok ss => Except.ok (executeTemplate parts ev :: ss)

/-- `Execute` of each action variant (source), with the side effects made
explicit as a trace.  The slack and jira variants render their templates,
issue one POST, and fail on a transport error or a status ≥ 300 with the
status line and body in the message; the exec variant renders its
arguments, feeds the JSON-marshalled record on stdin, and fails on a spawn
error or a nonzero exit; the filter decorator delegates only when there is
no pattern or the extracted CRE id is non-empty and matches. -/
def ActionT.Execute (w : World) : ActionT → EventRecord → List Effect × Except String Unit
  | ActionT.slack cfg tmpl, ev =>
      let msg := executeTemplate tmpl ev
      let req := slackRequest cfg msg
      match w.http req with
      | Except.error e => ([Effect.http req], Except.error ("slack post: " ++ e))
      | Except.ok resp =>
          if 300 ≤ resp.statusCode then
            ([Effect.http req],
             Except.error ("slack post failed: " ++ resp.status ++ " – " ++ resp.body))
          else
            ([Effect.http req], Except.ok ())
  | ActionT.jira cfg st dt, ev =>
      let summary := executeTemplate st ev
      let desc := executeTemplate dt ev
      let req := jiraRequest cfg summary desc
      match w.http req with
      | Except.error e => ([Effect.http req], Except.error ("jira post: " ++ e))
      | Except.ok resp =>
          if 300 ≤ resp.statusCode then
            ([Effect.http req],
             Except.error ("jira post failed: " ++ resp.status ++ " – " ++ resp.body))
          else
            ([Effect.http req], Except.ok ())
  | ActionT.exec cfg, ev =>
      match renderArgs cfg.args ev with
      | Except.error e => ([], Except.error e)
      | Except.ok args =>
          let stdin := jsonMarshal (GoVal.vmap ev)
          match w.run cfg.path args stdin with
          | Except.error e => ([Effect.spawn cfg.path args stdin], Except.error e)
          | Except.ok 0 => ([Effect.spawn cfg.path args stdin], Except.ok ())
          | Except.ok (n + 1) =>
              ([Effect.spawn cfg.path args stdin],
               Except.error ("exit status " ++ toString (n + 1)))
  | ActionT.filtered pattern inner, ev =>
      match pattern with
      | none => inner.Execute w ev
      | some re =>
          let id := extractCREID ev
          if id ≠ "" ∧ re.matchString id = true then inner.Execute w ev
          else ([], Except.ok ())

/-- `newSlackAction` (source). -/
def newSlackAction (cfg : SlackConfig) : Except String ActionT :=
  if cfg.webhookURL = "" then Except.error "slack.webhook_url is required"
  else if cfg.messageTemplate.isEmptyStr then
    Except.error "slack.message_template is required"
  else
    match parseTmpl cfg.messageTemplate with
    | Except.error e => Except.error e
    | Except.ok parts => Except.ok (ActionT.slack cfg parts)

/-- `newJiraAction` (source).  `env` is `os.Getenv` (empty string for an
unset variable); the resolved secret is stored back into the config. -/
def newJiraAction (env : String → String) (cfg : JiraConfig) : Except String ActionT :=
  if cfg.webhookURL = "" then Except.error "jira.webhook_url is required"
  else if cfg.summaryTemplate.isEmptyStr then
    Except.error "jira.summary_template is required"
  else if cfg.projectKey = "" then
    Except.error "jira.project_key is required when using REST API mode"
  else
    match parseTmpl cfg.summaryTemplate with
    | Except.error e => Except.error e
    | Except.ok st =>
        match parseTmpl cfg.descriptionTemplate with
        | Except.error e => Except.error e
        | Except.ok dt =>
            let secret :=
              if cfg.secret = "" ∧ cfg.secretEnv ≠ "" then env cfg.secretEnv else cfg.secret
            if secret = "" then
              Except.error "jira secret missing; set either 'secret' or 'secret_env'"
            else
              Except.ok (ActionT.jira { cfg with secret := secret } st dt)

/-- `newExecAction` (source): only the path is validated; the argument
templates are not inspected at construction time. -/
def newExecAction (cfg : ExecConfig) : Except String ActionT :=
  if cfg.path = "" then Except.error "exec.path is required"
  else Except.ok (ActionT.exec cfg)

/-- A regex source string as `buildActions` sees it: the empty string (no
filter), a non-empty pattern that compiles to a matcher, or a non-empty
pattern `regexp.Compile` rejects with a message. -/
inductive RegexSrc where
  | absent : RegexSrc
  | valid (re : Regexp) : RegexSrc
  | invalid (msg : String) : RegexSrc

/-- `actionConfig` (source): one parsed YAML entry. -/
structure ActionConfigEntry where
  type : String
  regex : RegexSrc
  slack : Option SlackConfig
  jira : Option JiraConfig
  exec : Option ExecConfig

/-- The body of `buildActions`' loop for the entry at index `i`: dispatch on
the type tag (erroring with the index when the matching section is missing
or the tag is unknown), then compile and apply the filter pattern (erroring
with the index on a compile failure).  Construction errors from the
`new*ActionT` constructors are returned as they are. -/
def buildOne (env : String → String) (i : Nat) (c : ActionConfigEntry) :
    Except String ActionT :=
  match (if c.type = "slack" then
           match c.slack with
           | none => Except.error ("missing slack section for action #" ++ toString i)
           | some sc => newSlackAction sc
         else if c.type = "jira" then
           match c.jira with
           | none => Except.error ("missing jira section for action #" ++ toString i)
           | some jc => newJiraAction env jc
         else if c.type = "exec" then
           match c.exec with
           | none => Except.error ("missing exec section for action #" ++ toString i)
           | some ec => newExecAction ec
         else
           Except.error ("unknown action type \"" ++ c.type ++ "\" (index " ++ toString i ++ ")")) with
  | Except.error e => Except.error e
  | Except.ok a =>
      match c.regex with
      | RegexSrc.absent => Except.ok a
      | RegexSrc.valid re => Except.ok (ActionT.filtered (some re) a)
      | RegexSrc.invalid msg =>
          Except.error ("invalid cre_id_regex for action #" ++ toString i ++ ": " ++ msg)

/-- The loop of `buildActions` starting at index `i`: entries in order,
first error wins. -/
def buildActionsAux (env : String → String) (i : Nat) :
    List ActionConfigEntry → Except String (List ActionT)
  | [] => Except.ok []
  | c :: cs =>
      match buildOne env i c with
      | Except.error e => Except.error e
      | Except.ok a =>
          match buildActionsAux env (i + 1) cs with
          | Except.error e => Except.error e
          | Except.ok rest => Except.ok (a :: rest)

/-- `buildActions` (source), from the already-unmarshalled config document
(file reading and YAML decoding are the excluded loading boundary). -/
def buildActions (env : String → String) (entries : List ActionConfigEntry) :
    Except String (List ActionT) :=
  buildActionsAux env 0 entries

/-- The inner loop of `Runbook` (source): one action over every record, in
order, stopping at the first error. -/
def runRecords (w : World) (a : ActionT) :
    List EventRecord → List Effect × Except String Unit
  | [] => ([], Except.ok ())
  | ev :: rest =>
      match a.Execute w ev with
      | (t, Except.error e) => (t, Except.error e)
      | (t, Except.ok _) =>
          let p := runRecords w a rest
          (t ++ p.1, p.2)

/-- The dispatch loop of `Runbook` (source): outer loop over actions, inner
loop over records, aborting on the first error. -/
def runbookLoop (w : World) :
    List ActionT → List EventRecord → List Effect × Except String Unit
  | [], _ => ([], Except.ok ())
  | a :: as, report =>
      match runRecords w a report with
      | (t, Except.error e) => (t, Except.error e)
      | (t, Except.ok _) =>
          let p := runbookLoop w as report
          (t ++ p.1, p.2)

/-- `Runbook` (source): build the actions from the config document, then
dispatch them over the report, propagating the first error. -/
def Runbook (w : World) (env : String → String) (entries : List ActionConfigEntry)
    (report : List EventRecord) : List Effect × Except String Unit :=
  match buildActions env entries with
  | Except.error e => ([], Except.error e)
  | Except.ok actions => runbookLoop w actions report

deriving instance DecidableEq for Except

/-- Spec-side (§4.6): the (action, record) matrix in the claimed nested
order — every record for action 1, then every record for action 2, … -/
def nestedPairs (actions : List ActionT) (report : List EventRecord) :
    List (ActionT × EventRecord) :=
  (actions.map (fun a => report.map (fun r => (a, r)))).flatten

/-- Spec-side (§4.6): execute a pair list left to right, abort at the first
error with no later pair executed. -/
def execPairs (w : World) : List (ActionT × EventRecord) → List Effect × Except String Unit
  | [] => ([], Except.ok ())
  | (a, r) :: rest =>
      match a.Execute w r with
      | (t, Except.error e) => (t, Except.error e)
      | (t, Except.ok _) =>
          let p := execPairs w rest
          (t ++ p.1, p.2)

/-- Spec-side (§4.6): the dispatcher contract — the nested-order pair list,
executed fail-fast. -/
def dispatchSpecNested (w : World) (actions : List ActionT) (report : List EventRecord) :
    List Effect × Except String Unit :=
  execPairs w (nestedPairs actions report)

theorem execPairs_append (w : World) (xs ys : List (ActionT × EventRecord)) :
    execPairs w (xs ++ ys) =
      (match execPairs w xs with
       | (t, Except.error e) => (t, Except.error e)
       | (t, Except.ok _) => (t ++ (execPairs w ys).1, (execPairs w ys).2)) := by
  induction xs with
  | nil => simp [execPairs]
  | cons p xs ih =>
      obtain ⟨a, r⟩ := p
      simp only [List.cons_append, execPairs]
      cases h : a.Execute w r with
      | mk t res =>
          cases res with
          | error e => simp
          | ok u =>
              cases hx : execPairs w xs with
              | mk tx rx =>
                  simp only [List.append_eq]
                  rw [ih, hx]
                  cases rx <;> simp [List.append_assoc]

theorem runRecords_eq_execPairs (w : World) (a : ActionT) (rs : List EventRecord) :
    runRecords w a rs = execPairs w (rs.map (fun r => (a, r))) := by
  induction rs with
  | nil => rfl
  | cons r rs ih =>
      simp only [runRecords, List.map_cons, execPairs]
      cases h : a.Execute w r with
      | mk t res =>
          cases res with
          | error e => rfl
          | ok u => simp [ih]

theorem runbookLoop_eq_dispatchSpec (w : World) (actions : List ActionT)
    (report : List EventRecord) :
    runbookLoop w actions report = dispatchSpecNested w actions report := by
  induction actions with
  | nil => rfl
  | cons a as ih =>
      simp only [runbookLoop, dispatchSpecNested, nestedPairs, List.map_cons,
        List.flatten_cons]
      rw [execPairs_append w, ← runRecords_eq_execPairs]
      cases h : runRecords w a report with
      | mk t res =>
          cases res with
          | error e => simp
          | ok u =>
              simp only [ih, dispatchSpecNested, nestedPairs]

/-- C1: the dispatcher executes the (action, record) pairs in the fixed
nested order — outer loop over actions, inner loop over records — aborting
at the first Execute error with that error and with no later pair executed;
in particular for actions [A1, A2] and records [R1, R2] with A1 succeeding
on R1 and failing on R2, the run performs exactly A1(R1) then A1(R2) and A2
is never invoked; and Runbook is this loop applied to the factory's output. -/
theorem runbook_dispatch_nested_failfast :
    (∀ (w : World) (actions : List ActionT) (report : List EventRecord),
      runbookLoop w actions report = dispatchSpecNested w actions report)
    ∧
    (∀ (w : World) (a1 a2 : ActionT) (r1 r2 : EventRecord)
        (t11 t12 : List Effect) (e : String),
      a1.Execute w r1 = (t11, Except.ok ()) →
      a1.Execute w r2 = (t12, Except.error e) →
      runbookLoop w [a1, a2] [r1, r2] = (t11 ++ t12, Except.error e))
    ∧
    (∀ (w : World) (env : String → String) (entries : List ActionConfigEntry)
        (report : List EventRecord) (actions : List ActionT),
      buildActions env entries = Except.ok actions →
      Runbook w env entries report = runbookLoop w actions report) := by
  refine ⟨runbookLoop_eq_dispatchSpec, ?_, ?_⟩
  · intro w a1 a2 r1 r2 t11 t12 e h1 h2
    simp [runbookLoop, runRecords, h1, h2]
  · intro w env entries report actions h
    simp [Runbook, h]

def c1World : World :=
  { http := fun req =>
      if strContains req.body "bad" then Except.ok ⟨500, "Internal Server Error", "err"⟩
      else Except.ok ⟨200, "OK", ""⟩
    run := fun _ _ _ => Except.ok 0 }

def c1Act : ActionT :=
  ActionT.slack ⟨"https://example/hook", TmplSrc.valid [TmplPart.fieldAcc "Reason"]⟩
    [TmplPart.fieldAcc "Reason"]

def c1R1 : EventRecord := [("Reason", GoVal.vstr "fine")]

def c1R2 : EventRecord := [("Reason", GoVal.vstr "bad")]

set_option maxRecDepth 10000 in
/-- Witness for C1 at a concrete failing scenario. -/
theorem runbook_dispatch_nested_failfast_witness :
    runbookLoop c1World [c1Act, c1Act] [c1R1, c1R2] =
      ((c1Act.Execute c1World c1R1).1 ++ (c1Act.Execute c1World c1R2).1,
       Except.error "slack post failed: 500 Internal Server Error – err") :=
  runbook_dispatch_nested_failfast.2.1 c1World c1Act c1Act c1R1 c1R2 _ _ _
    (by decide) (by decide)

/-- C2: secret resolution for the issue-tracker action, given a config that
passes the earlier validations (non-empty URL, non-empty valid summary
template, valid description template, non-empty project key): a non-empty
direct secret is used regardless of the configured environment-variable
name; an empty direct secret with a configured environment name is resolved
from the environment at construction time; and when neither yields a
non-empty value, construction fails with the secret-missing error and no
action is produced. -/
theorem jira_secret_resolution
    (env : String → String) (cfg : JiraConfig) (sp dp : List TmplPart)
    (hurl : cfg.webhookURL ≠ "")
    (hsum : cfg.summaryTemplate.isEmptyStr = false)
    (hsp : cfg.summaryTemplate = TmplSrc.valid sp)
    (hdp : cfg.descriptionTemplate = TmplSrc.valid dp)
    (hpk : cfg.projectKey ≠ "") :
    (cfg.secret ≠ "" →
      newJiraAction env cfg =
        Except.ok (ActionT.jira { cfg with secret := cfg.secret } sp dp))
    ∧
    (cfg.secret = "" → cfg.secretEnv ≠ "" → env cfg.secretEnv ≠ "" →
      newJiraAction env cfg =
        Except.ok (ActionT.jira { cfg with secret := env cfg.secretEnv } sp dp))
    ∧
    (cfg.secret = "" → (cfg.secretEnv = "" ∨ env cfg.secretEnv = "") →
      newJiraAction env cfg =
        Except.error "jira secret missing; set either 'secret' or 'secret_env'") := by
  rw [hsp] at hsum
  refine ⟨?_, ?_, ?_⟩
  · intro hs
    simp [newJiraAction, hurl, hsum, hsp, hdp, hpk, parseTmpl, hs]
  · intro hs he hv
    simp [newJiraAction, hurl, hsum, hsp, hdp, hpk, parseTmpl, hs, he, hv]
  · intro hs hcases
    rcases hcases with he | hv
    · simp [newJiraAction, hurl, hsum, hsp, hdp, hpk, parseTmpl, hs, he]
    · by_cases he : cfg.secretEnv = "" <;>
        simp [newJiraAction, hurl, hsum, hsp, hdp, hpk, parseTmpl, hs, he, hv]

def c2Env : String → String := fun n => if n = "JIRA_SECRET" then "envtok" else ""

def c2Cfg (secret secretEnv : String) : JiraConfig :=
  { webhookURL := "https://jira.example/hook"
    secret := secret
    secretEnv := secretEnv
    summaryTemplate := TmplSrc.valid [TmplPart.lit "S"]
    descriptionTemplate := TmplSrc.valid []
    projectKey := "PREQ" }

/-- Witness for C2: the three resolution outcomes at concrete configs. -/
theorem jira_secret_resolution_witness :
    newJiraAction c2Env (c2Cfg "tok" "JIRA_SECRET") =
      Except.ok (ActionT.jira { c2Cfg "tok" "JIRA_SECRET" with secret := "tok" }
        [TmplPart.lit "S"] []) ∧
    newJiraAction c2Env (c2Cfg "" "JIRA_SECRET") =
      Except.ok (ActionT.jira { c2Cfg "" "JIRA_SECRET" with secret := "envtok" }
        [TmplPart.lit "S"] []) ∧
    newJiraAction c2Env (c2Cfg "" "") =
      Except.error "jira secret missing; set either 'secret' or 'secret_env'" :=
  ⟨(jira_secret_resolution c2Env (c2Cfg "tok" "JIRA_SECRET") [TmplPart.lit "S"] []
      (by decide) rfl rfl rfl (by decide)).1 (by decide),
   (jira_secret_resolution c2Env (c2Cfg "" "JIRA_SECRET") [TmplPart.lit "S"] []
      (by decide) rfl rfl rfl (by decide)).2.1 rfl (by decide) (by decide),
   (jira_secret_resolution c2Env (c2Cfg "" "") [TmplPart.lit "S"] []
      (by decide) rfl rfl rfl (by decide)).2.2 rfl (Or.inl rfl)⟩

theorem jira_execute_trace (w : World) (jc : JiraConfig) (st dt : List TmplPart)
    (ev : EventRecord) :
    ((ActionT.jira jc st dt).Execute w ev).1 =
      [Effect.http (jiraRequest jc (executeTemplate st ev) (executeTemplate dt ev))] := by
  simp only [ActionT.Execute]
  cases w.http (jiraRequest jc (executeTemplate st ev) (executeTemplate dt ev)) with
  | error e => rfl
  | ok resp =>
      dsimp only
      split <;> rfl

/-- C10: a successfully constructed issue-tracker action always has a
non-empty secret, so every HTTP request it ever issues carries the
X-Automation-Webhook-Token header — the request-time guard on the secret is
never false for a factory-built jira action. -/
theorem jira_secret_header_invariant
    (env : String → String) (cfg jc : JiraConfig) (st dt : List TmplPart)
    (h : newJiraAction env cfg = Except.ok (ActionT.jira jc st dt)) :
    jc.secret ≠ "" ∧
    ∀ (w : World) (ev : EventRecord) (req : HttpRequest),
      Effect.http req ∈ ((ActionT.jira jc st dt).Execute w ev).1 →
      ("X-Automation-Webhook-Token", jc.secret) ∈ req.headers := by
  have hsec : jc.secret ≠ "" := by
    simp only [newJiraAction] at h
    split at h
    · exact absurd h (by simp)
    split at h
    · exact absurd h (by simp)
    split at h
    · exact absurd h (by simp)
    split at h
    · exact absurd h (by simp)
    split at h
    · exact absurd h (by simp)
    split at h <;> split at h
    · exact absurd h (by simp)
    · rename_i hres hne
      simp only [Except.ok.injEq, ActionT.jira.injEq] at h
      obtain ⟨hjc, -, -⟩ := h
      intro hc
      apply hne
      rw [← hjc] at hc
      exact hc
    · exact absurd h (by simp)
    · rename_i hres hne
      simp only [Except.ok.injEq, ActionT.jira.injEq] at h
      obtain ⟨hjc, -, -⟩ := h
      intro hc
      apply hne
      rw [← hjc] at hc
      exact hc
  refine ⟨hsec, ?_⟩
  intro w ev req hmem
  rw [jira_execute_trace] at hmem
  simp only [List.mem_singleton, Effect.http.injEq] at hmem
  subst hmem
  simp [jiraRequest, hsec]

def c10Env : String → String := fun _ => ""

def c10Cfg : JiraConfig :=
  { webhookURL := "https://jira.example/hook"
    secret := "tok"
    secretEnv := ""
    summaryTemplate := TmplSrc.valid [TmplPart.lit "S"]
    descriptionTemplate := TmplSrc.valid []
    projectKey := "PREQ" }

def c10World : World :=
  { http := fun _ => Except.ok ⟨200, "OK", ""⟩
    run := fun _ _ _ => Except.ok 0 }

set_option maxRecDepth 10000 in
/-- Witness for C10: the token header is on the request a concrete
factory-built jira action issues. -/
theorem jira_secret_header_invariant_witness :
    ("X-Automation-Webhook-Token", c10Cfg.secret) ∈
      (jiraRequest c10Cfg "S" "").headers :=
  (jira_secret_header_invariant c10Env c10Cfg c10Cfg [TmplPart.lit "S"] [] rfl).2
    c10World [] (jiraRequest c10Cfg "S" "") (by decide)

/-- C3: the filter decorator's gating — with no pattern it always delegates
to the inner action; with a pattern it delegates exactly when the extracted
identifier is non-empty and matches, and otherwise returns success with an
empty effect trace (no inner call, no HTTP request, no process spawn). -/
theorem filtered_action_gating :
    (∀ (w : World) (inner : ActionT) (ev : EventRecord),
      (ActionT.filtered none inner).Execute w ev = inner.Execute w ev)
    ∧
    (∀ (w : World) (re : Regexp) (inner : ActionT) (ev : EventRecord),
      extractCREID ev ≠ "" → re.matchString (extractCREID ev) = true →
      (ActionT.filtered (some re) inner).Execute w ev = inner.Execute w ev)
    ∧
    (∀ (w : World) (re : Regexp) (inner : ActionT) (ev : EventRecord),
      extractCREID ev = "" ∨ re.matchString (extractCREID ev) = false →
      (ActionT.filtered (some re) inner).Execute w ev = ([], Except.ok ())) := by
  refine ⟨fun w inner ev => rfl, ?_, ?_⟩
  · intro w re inner ev h1 h2
    simp [ActionT.Execute, h1, h2]
  · intro w re inner ev h
    rcases h with h | h <;> simp [ActionT.Execute, h]

def c3Re : Regexp := ⟨fun s => s == "CRE-1"⟩

def c3Inner : ActionT := ActionT.exec ⟨"/bin/true", []⟩

def c3World : World :=
  { http := fun _ => Except.ok ⟨200, "OK", ""⟩
    run := fun _ _ _ => Except.ok 0 }

def c3EvMatch : EventRecord := [("cre", GoVal.vmap [("id", GoVal.vstr "CRE-1")])]

def c3EvMiss : EventRecord := [("id", GoVal.vstr "CRE-other")]

set_option maxRecDepth 10000 in
/-- Witness for C3: a matching record delegates, a non-matching one is a
silent no-op. -/
theorem filtered_action_gating_witness :
    (ActionT.filtered (some c3Re) c3Inner).Execute c3World c3EvMatch =
      c3Inner.Execute c3World c3EvMatch ∧
    (ActionT.filtered (some c3Re) c3Inner).Execute c3World c3EvMiss =
      ([], Except.ok ()) :=
  ⟨filtered_action_gating.2.1 c3World c3Re c3Inner c3EvMatch (by decide) (by decide),
   filtered_action_gating.2.2 c3World c3Re c3Inner c3EvMiss (Or.inr (by decide))⟩

/-- C4 counterexample: rendering a field-accessor-only template against a
record lacking the field yields text/template's "<no value>" placeholder,
not the empty string the claim states. -/
theorem template_missing_field_cex :
    executeTemplate [TmplPart.fieldAcc "Reason"] [] = "<no value>" ∧
    executeTemplate [TmplPart.fieldAcc "Reason"] [] ≠ "" :=
  ⟨by decide, by decide⟩

/-- C4 (amended): rendering a template consisting only of a field accessor
against a record binding that field to the string X yields exactly X; against
a record lacking the field it yields "<no value>" (and no error — rendering
in the embedded template sublanguage is total, the accessor returning an
absent value rather than aborting). -/
theorem template_field_roundtrip_amended :
    (∀ (ev : EventRecord) (name X : String),
      ev.lookup name = some (GoVal.vstr X) →
      executeTemplate [TmplPart.fieldAcc name] ev = X)
    ∧
    (∀ (ev : EventRecord) (name : String),
      ev.lookup name = none →
      executeTemplate [TmplPart.fieldAcc name] ev = "<no value>") := by
  constructor
  · intro ev name X h
    simp [executeTemplate, renderPart, fieldFunc, fmtVal, h, String.join]
  · intro ev name h
    simp [executeTemplate, renderPart, fieldFunc, h, String.join]

/-- Witness for the amended C4 at a concrete record. -/
theorem template_field_roundtrip_amended_witness :
    executeTemplate [TmplPart.fieldAcc "F"] [("F", GoVal.vstr "X")] = "X" ∧
    executeTemplate [TmplPart.fieldAcc "G"] [("F", GoVal.vstr "X")] = "<no value>" :=
  ⟨template_field_roundtrip_amended.1 [("F", GoVal.vstr "X")] "F" "X" rfl,
   template_field_roundtrip_amended.2 [("F", GoVal.vstr "X")] "G" rfl⟩

def c5Entry : ActionConfigEntry :=
  { type := "exec"
    regex := RegexSrc.absent
    slack := none
    jira := none
    exec := some ⟨"/usr/local/bin/notify.sh", [TmplSrc.invalid "template: arg:1: unexpected EOF"]⟩ }

def c5World : World :=
  { http := fun _ => Except.ok ⟨200, "OK", ""⟩
    run := fun _ _ _ => Except.ok 0 }

/-- C5 counterexample: a configuration entry whose declared exec argument
template has invalid syntax passes the factory (buildActions returns an
action list), and the first report of the syntax error is an Execute call
at dispatch time. -/
theorem exec_template_deferred_cex :
    buildActions (fun _ => "") [c5Entry] =
      Except.ok [ActionT.exec ⟨"/usr/local/bin/notify.sh",
        [TmplSrc.invalid "template: arg:1: unexpected EOF"]⟩] ∧
    (ActionT.exec ⟨"/usr/local/bin/notify.sh",
        [TmplSrc.invalid "template: arg:1: unexpected EOF"]⟩).Execute c5World [] =
      ([], Except.error "template: arg:1: unexpected EOF") :=
  ⟨rfl, rfl⟩

/-- C5 (amended): invalid template syntax in a slack message template, a
jira summary template, or a jira description template is surfaced at
factory-construction time; exec argument templates are not inspected at
construction — an exec entry passes the factory regardless of its argument
templates, and an invalid argument template is first reported by Execute at
dispatch time, with no side effect. -/
theorem template_error_surfacing_amended :
    (∀ (sc : SlackConfig) (m : String),
      sc.webhookURL ≠ "" → sc.messageTemplate = TmplSrc.invalid m →
      newSlackAction sc = Except.error m)
    ∧
    (∀ (env : String → String) (jc : JiraConfig) (m : String),
      jc.webhookURL ≠ "" → jc.projectKey ≠ "" →
      jc.summaryTemplate = TmplSrc.invalid m →
      newJiraAction env jc = Except.error m)
    ∧
    (∀ (env : String → String) (jc : JiraConfig) (sp : List TmplPart) (m : String),
      jc.webhookURL ≠ "" → jc.projectKey ≠ "" →
      jc.summaryTemplate = TmplSrc.valid sp → jc.summaryTemplate.isEmptyStr = false →
      jc.descriptionTemplate = TmplSrc.invalid m →
      newJiraAction env jc = Except.error m)
    ∧
    (∀ ec : ExecConfig, ec.path ≠ "" → newExecAction ec = Except.ok (ActionT.exec ec))
    ∧
    (∀ (env : String → String) (i : Nat) (c : ActionConfigEntry) (ec : ExecConfig)
        (cs : List ActionConfigEntry),
      c.type = "exec" → c.exec = some ec → ec.path ≠ "" → c.regex = RegexSrc.absent →
      buildActionsAux env i (c :: cs) =
        (match buildActionsAux env (i + 1) cs with
         | Except.error e => Except.error e
         | Except.ok rest => Except.ok (ActionT.exec ec :: rest)))
    ∧
    (∀ (w : World) (ev : EventRecord) (ec : ExecConfig) (m : String)
        (rest : List TmplSrc),
      ec.args = TmplSrc.invalid m :: rest →
      (ActionT.exec ec).Execute w ev = ([], Except.error m)) := by
  refine ⟨?_, ?_, ?_, ?_, ?_, ?_⟩
  · intro sc m hurl hbad
    simp [newSlackAction, hurl, hbad, TmplSrc.isEmptyStr, parseTmpl]
  · intro env jc m hurl hpk hbad
    simp [newJiraAction, hurl, hpk, hbad, TmplSrc.isEmptyStr, parseTmpl]
  · intro env jc sp m hurl hpk hsp hsum hbad
    rw [hsp] at hsum
    simp [newJiraAction, hurl, hpk, hsp, hsum, hbad, parseTmpl]
  · intro ec hp
    simp [newExecAction, hp]
  · intro env i c ec cs htype hexec hp hre
    simp [buildActionsAux, buildOne, htype, hexec, hre, newExecAction, hp]
  · intro w ev ec m rest hargs
    simp [ActionT.Execute, renderArgs, hargs, parseTmpl]

def c5wWorld : World :=
  { http := fun _ => Except.ok ⟨200, "OK", ""⟩
    run := fun _ _ _ => Except.ok 0 }

/-- Witness for the amended C5: a slack syntax error at construction, and
an exec argument syntax error at dispatch. -/
theorem template_error_surfacing_amended_witness :
    newSlackAction ⟨"https://hooks.example/x", TmplSrc.invalid "template: slack:1: unexpected EOF"⟩ =
      Except.error "template: slack:1: unexpected EOF" ∧
    (ActionT.exec ⟨"/bin/notify", [TmplSrc.invalid "template: arg:1: bad character"]⟩).Execute
        c5wWorld [] =
      ([], Except.error "template: arg:1: bad character") :=
  ⟨template_error_surfacing_amended.1
      ⟨"https://hooks.example/x", TmplSrc.invalid "template: slack:1: unexpected EOF"⟩
      "template: slack:1: unexpected EOF" (by decide) rfl,
   template_error_surfacing_amended.2.2.2.2.2 c5wWorld []
      ⟨"/bin/notify", [TmplSrc.invalid "template: arg:1: bad character"]⟩
      "template: arg:1: bad character" [] rfl⟩

def c6Entry : ActionConfigEntry :=
  { type := "slack"
    regex := RegexSrc.absent
    slack := some ⟨"", TmplSrc.valid [TmplPart.lit "m"]⟩
    jira := none
    exec := none }

/-- C6 counterexample: a concrete-action construction failure (empty slack
webhook URL, entry at position 0) is returned by the factory verbatim; the
message contains no occurrence of the entry's index, so it is not annotated
with the entry's position. -/
theorem factory_error_annotation_cex :
    buildActions (fun _ => "") [c6Entry] = Except.error "slack.webhook_url is required" ∧
    strContains "slack.webhook_url is required" "0" = false :=
  ⟨rfl, by decide⟩

/-- C6 (amended): the factory processes entries in order and returns the
first error with no action list; missing-section, unknown-tag and
filter-pattern-compile errors are annotated with the entry's index, but a
concrete-Action construction failure is propagated verbatim, without the
entry's position. -/
theorem factory_first_error_annotation_amended :
    (∀ (env : String → String) (i : Nat) (c : ActionConfigEntry)
        (cs : List ActionConfigEntry) (e : String),
      buildOne env i c = Except.error e →
      buildActionsAux env i (c :: cs) = Except.error e)
    ∧
    (∀ (env : String → String) (i : Nat) (c : ActionConfigEntry)
        (cs : List ActionConfigEntry) (a : ActionT),
      buildOne env i c = Except.ok a →
      buildActionsAux env i (c :: cs) =
        (match buildActionsAux env (i + 1) cs with
         | Except.error e => Except.error e
         | Except.ok rest => Except.ok (a :: rest)))
    ∧
    (∀ (env : String → String) (i : Nat) (c : ActionConfigEntry),
      c.type = "slack" → c.slack = none →
      buildOne env i c = Except.error ("missing slack section for action #" ++ toString i))
    ∧
    (∀ (env : String → String) (i : Nat) (c : ActionConfigEntry),
      c.type = "jira" → c.jira = none →
      buildOne env i c = Except.error ("missing jira section for action #" ++ toString i))
    ∧
    (∀ (env : String → String) (i : Nat) (c : ActionConfigEntry),
      c.type = "exec" → c.exec = none →
      buildOne env i c = Except.error ("missing exec section for action #" ++ toString i))
    ∧
    (∀ (env : String → String) (i : Nat) (c : ActionConfigEntry),
      c.type ≠ "slack" → c.type ≠ "jira" → c.type ≠ "exec" →
      buildOne env i c =
        Except.error ("unknown action type \"" ++ c.type ++ "\" (index " ++ toString i ++ ")"))
    ∧
    (∀ (env : String → String) (i : Nat) (c : ActionConfigEntry) (a : ActionT)
        (m : String),
      buildOne env i { c with regex := RegexSrc.absent } = Except.ok a →
      c.regex = RegexSrc.invalid m →
      buildOne env i c =
        Except.error ("invalid cre_id_regex for action #" ++ toString i ++ ": " ++ m))
    ∧
    (∀ (env : String → String) (i : Nat) (c : ActionConfigEntry) (sc : SlackConfig)
        (e : String),
      c.type = "slack" → c.slack = some sc → newSlackAction sc = Except.error e →
      buildOne env i c = Except.error e)
    ∧
    (∀ (env : String → String) (i : Nat) (c : ActionConfigEntry) (jc : JiraConfig)
        (e : String),
      c.type = "jira" → c.jira = some jc → newJiraAction env jc = Except.error e →
      buildOne env i c = Except.error e)
    ∧
    (∀ (env : String → String) (i : Nat) (c : ActionConfigEntry) (ec : ExecConfig)
        (e : String),
      c.type = "exec" → c.exec = some ec → newExecAction ec = Except.error e →
      buildOne env i c = Except.error e) := by
  refine ⟨?_, ?_, ?_, ?_, ?_, ?_, ?_, ?_, ?_, ?_⟩
  · intro env i c cs e h
    simp [buildActionsAux, h]
  · intro env i c cs a h
    simp [buildActionsAux, h]
  · intro env i c ht hs
    simp [buildOne, ht, hs]
  · intro env i c ht hs
    simp [buildOne, ht, hs]
  · intro env i c ht hs
    simp [buildOne, ht, hs]
  · intro env i c h1 h2 h3
    simp [buildOne, h1, h2, h3]
  · intro env i c a m h hre
    simp only [buildOne] at h ⊢
    rw [hre]
    split at h
    · exact absurd h (by simp)
    · rfl
  · intro env i c sc e ht hs h
    simp [buildOne, ht, hs, h]
  · intro env i c jc e ht hj h
    simp [buildOne, ht, hj, h]
  · intro env i c ec e ht he h
    simp [buildOne, ht, he, h]

def c6MissingEntry : ActionConfigEntry :=
  { type := "slack", regex := RegexSrc.absent, slack := none, jira := none, exec := none }

/-- Witness for the amended C6: a missing-section error carries the entry's
index; a construction failure is the constructor's message verbatim at any
index. -/
theorem factory_first_error_annotation_amended_witness :
    buildOne (fun _ => "") 3 c6MissingEntry =
      Except.error "missing slack section for action #3" ∧
    buildOne (fun _ => "") 7 c6Entry = Except.error "slack.webhook_url is required" ∧
    buildActionsAux (fun _ => "") 0 [c6Entry] =
      Except.error "slack.webhook_url is required" :=
  ⟨factory_first_error_annotation_amended.2.2.1 (fun _ => "") 3 c6MissingEntry rfl rfl,
   factory_first_error_annotation_amended.2.2.2.2.2.2.2.1 (fun _ => "") 7 c6Entry
     ⟨"", TmplSrc.valid [TmplPart.lit "m"]⟩ "slack.webhook_url is required" rfl rfl rfl,
   factory_first_error_annotation_amended.1 (fun _ => "") 0 c6Entry []
     "slack.webhook_url is required" rfl⟩

/-- Observation: key lookup on a JSON-object-shaped value. -/
def mapLookupV (v : GoVal) (k : String) : Option GoVal :=
  match v with
  | GoVal.vmap m => m.lookup k
  | _ => none

/-- Observation (claim C7's path): `content[0].content[0].text` of a
description document, defined only when the document holds exactly one
paragraph holding exactly one text node. -/
def descTextPath (v : GoVal) : Option String :=
  match mapLookupV v "content" with
  | some (GoVal.vseq [p]) =>
      match mapLookupV p "content" with
      | some (GoVal.vseq [t]) =>
          match mapLookupV t "text" with
          | some (GoVal.vstr s) => some s
          | _ => none
      | _ => none
  | _ => none

/-- C7: the issue-tracker action's emitted payload wraps the rendered
description D as one document with type marker "doc" and version 1, holding
a single paragraph with a single text node whose text is exactly D
(description.content[0].content[0].text = D), and carries the project key,
the rendered summary, and the fixed issue type "Bug"; the action issues
exactly one POST whose body is the JSON marshalling of that payload. -/
theorem jira_payload_wrapping :
    (∀ D : String,
      descTextPath (adfParagraph D) = some D ∧
      mapLookupV (adfParagraph D) "type" = some (GoVal.vstr "doc") ∧
      mapLookupV (adfParagraph D) "version" = some (GoVal.vint 1))
    ∧
    (∀ (pk s d : String),
      mapLookupV (jiraPayload pk s d) "project" =
        some (GoVal.vmap [("key", GoVal.vstr pk)]) ∧
      mapLookupV (jiraPayload pk s d) "summary" = some (GoVal.vstr s) ∧
      mapLookupV (jiraPayload pk s d) "description" = some (adfParagraph d) ∧
      mapLookupV (jiraPayload pk s d) "issuetype" =
        some (GoVal.vmap [("name", GoVal.vstr "Bug")]))
    ∧
    (∀ (w : World) (jc : JiraConfig) (st dt : List TmplPart) (ev : EventRecord),
      ((ActionT.jira jc st dt).Execute w ev).1 =
        [Effect.http (jiraRequest jc (executeTemplate st ev) (executeTemplate dt ev))] ∧
      (jiraRequest jc (executeTemplate st ev) (executeTemplate dt ev)).body =
        jsonMarshal (jiraPayload jc.projectKey (executeTemplate st ev)
          (executeTemplate dt ev))) := by
  refine ⟨fun D => ⟨rfl, rfl, rfl⟩, fun pk s d => ⟨rfl, rfl, rfl, rfl⟩, ?_⟩
  intro w jc st dt ev
  exact ⟨jira_execute_trace w jc st dt ev, rfl⟩

/-- C8: each slack action execution issues exactly one POST to the
configured URL, with the application/json content type and body the JSON
object binding "text" to the rendered message; given a response, Execute
succeeds exactly when the status code is below 300, and otherwise fails
with an error carrying the status line and the response body. -/
theorem slack_post_semantics (w : World) (cfg : SlackConfig) (tmpl : List TmplPart)
    (ev : EventRecord) :
    ((ActionT.slack cfg tmpl).Execute w ev).1 =
      [Effect.http (slackRequest cfg (executeTemplate tmpl ev))] ∧
    (slackRequest cfg (executeTemplate tmpl ev)).method = "POST" ∧
    (slackRequest cfg (executeTemplate tmpl ev)).url = cfg.webhookURL ∧
    (slackRequest cfg (executeTemplate tmpl ev)).headers =
      [("Content-Type", "application/json")] ∧
    (slackRequest cfg (executeTemplate tmpl ev)).body =
      jsonMarshal (GoVal.vmap [("text", GoVal.vstr (executeTemplate tmpl ev))]) ∧
    ∀ resp : HttpResponse,
      w.http (slackRequest cfg (executeTemplate tmpl ev)) = Except.ok resp →
      (((ActionT.slack cfg tmpl).Execute w ev).2 = Except.ok () ↔ resp.statusCode < 300) ∧
      (300 ≤ resp.statusCode →
        ((ActionT.slack cfg tmpl).Execute w ev).2 =
          Except.error ("slack post failed: " ++ resp.status ++ " – " ++ resp.body)) := by
  refine ⟨?_, rfl, rfl, rfl, rfl, ?_⟩
  · simp only [ActionT.Execute]
    cases w.http (slackRequest cfg (executeTemplate tmpl ev)) with
    | error e => rfl
    | ok resp =>
        dsimp only
        split <;> rfl
  · intro resp hresp
    constructor
    · simp only [ActionT.Execute, hresp]
      split
      · rename_i hge
        constructor
        · intro habs
          exact absurd habs (by simp)
        · intro hlt
          exact absurd hlt (by omega)
      · rename_i hge
        constructor
        · intro _
          omega
        · intro _
          rfl
    · intro hc
      simp only [ActionT.Execute, hresp]
      rw [if_pos hc]

def c8World : World :=
  { http := fun _ => Except.ok ⟨500, "Internal Server Error", "oops"⟩
    run := fun _ _ _ => Except.ok 0 }

def c8Cfg : SlackConfig :=
  { webhookURL := "https://example/hook"
    messageTemplate := TmplSrc.valid [TmplPart.lit "Reason: ", TmplPart.fieldAcc "Reason"] }

def c8Ev : EventRecord := [("Reason", GoVal.vstr "disk full")]

set_option maxRecDepth 10000 in
/-- Witness for C8: the concrete scenario of the spec — one POST with the
rendered body, and a 500 response surfacing an error containing "500". -/
theorem slack_post_semantics_witness :
    ((ActionT.slack c8Cfg [TmplPart.lit "Reason: ", TmplPart.fieldAcc "Reason"]).Execute
        c8World c8Ev).1 =
      [Effect.http (slackRequest c8Cfg "Reason: disk full")] ∧
    ((ActionT.slack c8Cfg [TmplPart.lit "Reason: ", TmplPart.fieldAcc "Reason"]).Execute
        c8World c8Ev).2 =
      Except.error "slack post failed: 500 Internal Server Error – oops" ∧
    strContains "slack post failed: 500 Internal Server Error – oops" "500" = true :=
  ⟨(slack_post_semantics c8World c8Cfg [TmplPart.lit "Reason: ", TmplPart.fieldAcc "Reason"]
      c8Ev).1,
   ((slack_post_semantics c8World c8Cfg [TmplPart.lit "Reason: ", TmplPart.fieldAcc "Reason"]
      c8Ev).2.2.2.2.2 ⟨500, "Internal Server Error", "oops"⟩ rfl).2 (by decide),
   by decide⟩

/-- The id "carried" by a `cre` value under the claim's reading (C9): a
mapping or structured object (through one pointer) carrying an `id` (or
`ID`) string. -/
def claimCarriedId : GoVal → Option String
  | GoVal.vmap m => mapCreId m
  | GoVal.vstruct fs =>
      (match stringAt fs "id" with
       | some s => some s
       | none => stringAt fs "ID")
  | GoVal.vptr (GoVal.vstruct fs) =>
      (match stringAt fs "id" with
       | some s => some s
       | none => stringAt fs "ID")
  | _ => none

/-- The claim's identifier convention (C9 as stated): the id carried by the
`cre` field when there is one, else the top-level `id` string, else "". -/
def claimCREID (ev : EventRecord) : String :=
  match ev.lookup "cre" with
  | some cre =>
      match claimCarriedId cre with
      | some id => id
      | none => (stringAt ev "id").getD ""
  | none => (stringAt ev "id").getD ""

def c9Ev : EventRecord := [("cre", GoVal.vstruct [("id", GoVal.vstr "CRE-7")])]

/-- C9 counterexample: a record whose `cre` is a structured object carrying
an `id` string — the claim's convention yields that string, but the code's
struct branch consults only the `ID` field, falls back to the (absent)
top-level id, and extracts the empty identifier. -/
theorem cre_id_struct_lowercase_cex :
    claimCREID c9Ev = "CRE-7" ∧ extractCREID c9Ev = "" ∧ ("CRE-7" : String) ≠ "" :=
  ⟨rfl, rfl, by decide⟩

/-- The id carried by a `cre` value as the code extracts it (amended C9):
for a mapping, an `id` then `ID` string entry; for a structured object
(through one pointer), only the exported `ID` string field. -/
def amendedCarriedId : GoVal → Option String
  | GoVal.vmap m => mapCreId m
  | GoVal.vstruct fs => stringAt fs "ID"
  | GoVal.vptr (GoVal.vstruct fs) => stringAt fs "ID"
  | _ => none

/-- The amended identifier convention (C9): the carried id when present,
else the top-level `id` string, else the empty string (extraction is total
and never fails). -/
def amendedCREID (ev : EventRecord) : String :=
  match ev.lookup "cre" with
  | some cre =>
      match amendedCarriedId cre with
      | some id => id
      | none => (stringAt ev "id").getD ""
  | none => (stringAt ev "id").getD ""

/-- C9 (amended): the extracted filtering identifier follows the amended
convention — the `cre` mapping's `id`/`ID` string, or the `cre` struct's
`ID` string (through one pointer), else the top-level `id` string, else
empty; extraction is a total function and never fails. -/
theorem extract_cre_id_amended (ev : EventRecord) : extractCREID ev = amendedCREID ev := by
  unfold extractCREID amendedCREID amendedCarriedId
  cases hc : ev.lookup "cre" with
  | none =>
      cases hi : stringAt ev "id" <;> simp
  | some cre =>
      cases cre with
      | vnull => cases hi : stringAt ev "id" <;> simp [derefOnce]
      | vstr s => cases hi : stringAt ev "id" <;> simp [derefOnce]
      | vint n => cases hi : stringAt ev "id" <;> simp [derefOnce]
      | vbool b => cases hi : stringAt ev "id" <;> simp [derefOnce]
      | vseq xs => cases hi : stringAt ev "id" <;> simp [derefOnce]
      | vmap m =>
          cases hm : mapCreId m
          · cases hi : stringAt ev "id" <;> simp [derefOnce, hm]
          · simp [derefOnce, hm]
      | vstruct fs =>
          cases hs : stringAt fs "ID"
          · cases hi : stringAt ev "id" <;> simp [derefOnce, hs]
          · simp [derefOnce, hs]
      | vptr x =>
          cases x with
          | vstruct fs =>
              cases hs : stringAt fs "ID"
              · cases hi : stringAt ev "id" <;> simp [derefOnce, hs]
              · simp [derefOnce, hs]
          | vnull => cases hi : stringAt ev "id" <;> simp [derefOnce]
          | vstr s => cases hi : stringAt ev "id" <;> simp [derefOnce]
          | vint n => cases hi : stringAt ev "id" <;> simp [derefOnce]
          | vbool b => cases hi : stringAt ev "id" <;> simp [derefOnce]
          | vseq xs => cases hi : stringAt ev "id" <;> simp [derefOnce]
          | vmap m => cases hi : stringAt ev "id" <;> simp [derefOnce]
          | vptr y => cases hi : stringAt ev "id" <;> simp [derefOnce]
